import Mathlib

/-!
# Docker deployer connector

A shallow embedding of `connector.go` and `container.go`:

* the pull-progress `logWriter` (`Write`, `Close`), with the logger modelled as
  the list of statements handed to it;
* the connector (`pullImage`, `createContainer`, `attachContainer`,
  `startContainer`, `Deploy`) and the container handle (`Close`, `ID`), run
  against an arbitrary engine client whose calls are recorded in a trace.

The mutex of `logWriter` is not modelled: every operation runs to completion.
Byte buffers are lists of bytes; image references and container ids are
strings, split and matched character by character (the separator `:` and the
tag pattern are ASCII). Contexts, timeouts and the duration of the start delay
are left out; the delay itself is recorded in the trace.
-/

namespace Docker

/-! ## Strings and bytes -/

/-- One byte of a Go `[]byte` or `string`. -/
abbrev Byte := UInt8

/-- The newline byte, the separator `"\n"` of `logWriter.Write`. -/
def newline : Byte := 10

/-- Go `strings.Split(s, sep)` for a separator of one element: the pieces of
`s` between the separators, in order; never empty (`Split("", sep)` is `[""]`). -/
def stringsSplit {α : Type} [DecidableEq α] (sep : α) : List α → List (List α)
  | [] => [[]]
  | c :: cs =>
    if c = sep then [] :: stringsSplit sep cs
    else
      match stringsSplit sep cs with
      | [] => [[c]]
      | p :: ps => (c :: p) :: ps

/-! ## Errors and log statements -/

/-- An error returned by the engine client. The connector only ever asks
whether `client.IsErrNotFound` holds of it. -/
structure EngineError where
  msg : String
  notFound : Bool
deriving DecidableEq, Repr

/-- Go `error` values built by the connector: an engine error, or
`fmt.Errorf(format, subject, cause)` where `format` ends in `(%w)`. -/
inductive GoError where
  | engine (e : EngineError)
  | errorf (format : String) (subject : String) (cause : GoError)
deriving DecidableEq, Repr

/-- Levels of `log.Logger` used by the connector. -/
inductive Level where
  | debug
  | info
  | warning
deriving DecidableEq, Repr

/-- An argument handed to a `Debugf`/`Infof`/`Warningf` call. `V` is the type of
non-nil values `encoding/json` stores in a `map[string]any`; `any none` is the
nil interface value. -/
inductive Arg (V : Type) where
  | str (s : String)
  | bytes (b : List Byte)
  | any (v : Option V)
  | err (e : GoError)
deriving DecidableEq, Repr

/-- One call of the logger: level, format string and arguments. -/
structure LogEntry (V : Type) where
  level : Level
  format : String
  args : List (Arg V)
deriving DecidableEq, Repr

/-- A decoded `map[string]any`: `m k = none` when key `k` is absent,
`m k = some v` when present with value `v` (`v = none` for JSON null). -/
abbrev GoMap (V : Type) := String → Option (Option V)

/-- Go `m[k]` in its one-result form: the zero value nil when the key is absent. -/
def GoMap.index {V : Type} (m : GoMap V) (k : String) : Option V :=
  match m k with
  | some v => v
  | none => none

/-- The behaviour of `json.Unmarshal(line, &map[string]any{})`: `none` when it
returns an error, the decoded map otherwise. -/
abbrev Unmarshal (V : Type) := List Byte → Option (GoMap V)

/-! ## logWriter -/

/-- The `logWriter` of `connector.go`; `logger` is the output list of the
operations below. -/
structure logWriter where
  buffer : List Byte
deriving DecidableEq, Repr

/-- What `logWriter.Write` returns and does. -/
structure WriteResult (V : Type) where
  writer : logWriter
  logged : List (LogEntry V)
  n : Nat
  err : Option GoError

/-- The body of the loop of `logWriter.Write` for one element `part = parts[i]`. -/
def logLine {V : Type} (unmarshal : Unmarshal V) (part : List Byte) : LogEntry V :=
  match unmarshal part with
  | none => ⟨Level.debug, "%s", [Arg.bytes part]⟩
  | some line =>
    match line "progress" with
    | some progress =>
      ⟨Level.debug, "%s %s: %s", [Arg.any (line.index "status"), Arg.any (line.index "id"), Arg.any progress]⟩
    | none =>
      match line "id" with
      | some id => ⟨Level.debug, "%s: %s", [Arg.any (line.index "status"), Arg.any id]⟩
      | none => ⟨Level.debug, "%s", [Arg.any (line.index "status")]⟩

/-- The method `logWriter.Write`: append, split on newline, run the loop
`for i := 0; i < len(parts)-2; i++`, keep `parts[len(parts)-1]`.
`len(parts) ≥ 1`, and for `len(parts) = 1` the bound `-1` gives no iteration, as
does the truncated subtraction here. -/
def logWriter.Write {V : Type} (unmarshal : Unmarshal V) (l : logWriter) (p : List Byte) :
    WriteResult V :=
  let buffer := l.buffer ++ p
  let parts := stringsSplit newline buffer
  let logged := (List.range (parts.length - 2)).map (fun i => logLine unmarshal (parts.getD i []))
  { writer := ⟨parts.getD (parts.length - 1) []⟩, logged := logged, n := p.length, err := none }

/-- What `logWriter.Close` returns and does. -/
structure CloseResult (V : Type) where
  writer : logWriter
  logged : List (LogEntry V)
  err : Option GoError

/-- The method `logWriter.Close`: a non-empty buffer is logged raw and dropped. -/
def logWriter.Close {V : Type} (l : logWriter) : CloseResult V :=
  if l.buffer.length > 0 then
    { writer := ⟨[]⟩, logged := [⟨Level.debug, "%s", [Arg.bytes l.buffer]⟩], err := none }
  else
    { writer := l, logged := [], err := none }

/-- The writer `pullImage` builds: `buffer: []byte{}`. -/
def logWriter.fresh : logWriter := ⟨[]⟩

/-- The loop of `io.Copy(writer, reader)` over the chunks the reader delivers: one
`Write` per chunk (a `Write` never fails, so the loop never stops early).
Returns the writer and everything logged. -/
def ioCopy {V : Type} (unmarshal : Unmarshal V) : logWriter → List (List Byte) → logWriter × List (LogEntry V)
  | l, [] => (l, [])
  | l, p :: ps =>
    let r := l.Write unmarshal p
    let rest := ioCopy unmarshal r.writer ps
    (rest.1, r.logged ++ rest.2)

/-- The statements of a whole run: a fresh writer, the chunks, then `Close`. -/
def runLog {V : Type} (unmarshal : Unmarshal V) (chunks : List (List Byte)) : List (LogEntry V) :=
  let r := ioCopy unmarshal logWriter.fresh chunks
  r.2 ++ (r.1.Close : CloseResult V).logged

/-! ## Reading a stream line by line (reference definitions) -/

/-- The newline-terminated lines of a stream, read left to right; `cur` is the
text read since the last separator. -/
def completeLinesFrom {α : Type} [DecidableEq α] (sep : α) : List α → List α → List (List α)
  | _, [] => []
  | cur, c :: cs =>
    if c = sep then cur :: completeLinesFrom sep [] cs
    else completeLinesFrom sep (cur ++ [c]) cs

/-- The text after the last separator, read left to right; `cur` is the text
read since the last separator. -/
def trailingFrom {α : Type} [DecidableEq α] (sep : α) : List α → List α → List α
  | cur, [] => cur
  | cur, c :: cs =>
    if c = sep then trailingFrom sep [] cs
    else trailingFrom sep (cur ++ [c]) cs

/-- The complete (newline-terminated) lines of a byte stream, in stream order. -/
def completeLines (s : List Byte) : List (List Byte) := completeLinesFrom newline [] s

/-- The text of a byte stream after its last newline (all of it when it has none). -/
def trailingFragment (s : List Byte) : List Byte := trailingFrom newline [] s

/-! ## Configuration and engine client -/

/-- Modelled from the spec: `config.go` is not among the sources. The pull
policy of the deployment configuration, `Always | IfNotPresent | Never`. -/
inductive ImagePullPolicy where
  | Always
  | IfNotPresent
  | Never
deriving DecidableEq, Repr

/-- Docker's `container.Config`, the fields `createContainer` writes; `rest`
stands for every other field, which the connector neither reads nor writes. -/
structure ContainerConfig where
  Image : String
  Tty : Bool
  AttachStdin : Bool
  AttachStdout : Bool
  AttachStderr : Bool
  StdinOnce : Bool
  OpenStdin : Bool
  Cmd : List String
  Env : List String
  rest : List (String × String)
deriving DecidableEq, Repr

/-- The Go zero value `container.Config{}`. -/
def ContainerConfig.zero : ContainerConfig :=
  { Image := "", Tty := false, AttachStdin := false, AttachStdout := false,
    AttachStderr := false, StdinOnce := false, OpenStdin := false,
    Cmd := [], Env := [], rest := [] }

/-- Modelled from the spec: `config.go` is not among the sources. The fields of
`Config.Deployment` the connector reads. `ContainerConfig` is a pointer (`none`
is nil); `HostConfig`, `NetworkConfig` and `Platform` are pointers the connector
only forwards to the engine. -/
structure Deployment where
  ContainerConfig : Option ContainerConfig
  HostConfig : Option String
  NetworkConfig : Option String
  Platform : Option String
  ImagePullPolicy : ImagePullPolicy
  StartDelayMS : Int
deriving DecidableEq, Repr

/-- Modelled from the spec: `config.go` is not among the sources. The
connector's `*Config`, shared by all its deployments. -/
structure Config where
  Deployment : Deployment
deriving DecidableEq, Repr

/-- Docker's `types.HijackedResponse`: the duplex connection of an attach and
the reader over it, each by identity. -/
structure HijackedResponse where
  Conn : Nat
  Reader : Nat
deriving DecidableEq, Repr

/-- Docker's `container.AttachOptions`, the fields `attachContainer` sets. -/
structure AttachOptions where
  Stream : Bool
  Stdin : Bool
  Stdout : Bool
  Stderr : Bool
  Logs : Bool
deriving DecidableEq, Repr

/-- The stream `ImagePull` returns, as `io.Copy` sees it: the chunks its `Read`
delivers, then end of stream (`err = none`) or a read error. -/
structure PullReader where
  chunks : List (List Byte)
  err : Option EngineError
deriving DecidableEq, Repr

/-- The result of `ContainerCreate`: an error or the id of the new container. -/
inductive CreateResponse where
  | error (e : EngineError)
  | ok (ID : String)
deriving DecidableEq, Repr

/-- One interaction with the engine (or the clock), with its result. -/
inductive Call where
  | ImageInspect (image : String) (err : Option EngineError)
  | ImagePull (image : String) (err : Option EngineError)
  | PullRead (err : Option EngineError)
  | ContainerCreate (config : ContainerConfig) (host : Option String) (network : Option String)
      (platform : Option String) (name : String) (res : CreateResponse)
  | ContainerAttach (id : String) (options : AttachOptions) (err : Option EngineError)
  | Sleep (ms : Int)
  | ContainerStart (id : String) (err : Option EngineError)
  | HijackedClose (h : HijackedResponse)
  | HijackedCloseWrite (h : HijackedResponse) (err : Option EngineError)
  | ContainerStop (id : String) (err : Option EngineError)
deriving DecidableEq, Repr

/-- The engine client `*client.Client`, as far as the connector uses it: each
method maps the engine's state to a result and a new state. -/
structure Client (σ : Type) where
  ImageInspect : String → σ → Option EngineError × σ
  ImagePull : String → σ → Except EngineError PullReader × σ
  ContainerCreate : ContainerConfig → Option String → Option String → Option String → String →
    σ → CreateResponse × σ
  ContainerAttach : String → AttachOptions → σ → Except EngineError HijackedResponse × σ
  ContainerStart : String → σ → Option EngineError × σ
  ContainerStop : String → σ → Option EngineError × σ
  HijackedClose : HijackedResponse → σ → σ
  HijackedCloseWrite : HijackedResponse → σ → Option EngineError × σ

/-- Everything outside the connector: the engine's state, the calls made so
far and the statements logged so far. -/
structure World (σ V : Type) where
  engine : σ
  calls : List Call
  logs : List (LogEntry V)

/-- A world in which nothing has been called or logged yet. -/
def World.init {σ V : Type} (s : σ) : World σ V := ⟨s, [], []⟩

/-- One call of `c.logger`. -/
def World.logf {σ V : Type} (w : World σ V) (level : Level) (format : String) (args : List (Arg V)) :
    World σ V :=
  { w with logs := w.logs ++ [⟨level, format, args⟩] }

/-- One engine call made: the call is appended and the engine moves to `s`. -/
def World.record {σ V : Type} (w : World σ V) (c : Call) (s : σ) : World σ V :=
  { engine := s, calls := w.calls ++ [c], logs := w.logs }

/-! ## Container handle -/

/-- Modelled from the spec: the file declaring `multiplexedReader` is not among
the sources. The read-side adapter, by the reader it wraps (`none` is nil). -/
structure multiplexedReader where
  reader : Option Nat
deriving DecidableEq, Repr

/-- The `connectorContainer` of `container.go`; `cli` is passed to the methods. -/
structure connectorContainer where
  id : String
  hijackedResponse : Option HijackedResponse
  multiplexedReader : multiplexedReader
deriving DecidableEq, Repr

/-- The method `connectorContainer.ID`. -/
def connectorContainer.ID (c : connectorContainer) : String := c.id

/-- The method `connectorContainer.Close`: close the transport when there is
one, then `ContainerStop`; only a stop error other than "not found" is returned. -/
def connectorContainer.Close {σ V : Type} (cli : Client σ) (c : connectorContainer) (w : World σ V) :
    Option GoError × World σ V :=
  let w1 :=
    match c.hijackedResponse with
    | some h =>
      let w0 := w.record (Call.HijackedClose h) (cli.HijackedClose h w.engine)
      let r := cli.HijackedCloseWrite h w0.engine
      w0.record (Call.HijackedCloseWrite h r.1) r.2
    | none => w
  let r := cli.ContainerStop c.id w1.engine
  let w2 := w1.record (Call.ContainerStop c.id r.1) r.2
  match r.1 with
  | some err =>
    if !err.notFound then
      (some (GoError.errorf "failed to stop container %s (%w)" c.id (GoError.engine err)), w2)
    else (none, w2)
  | none => (none, w2)

/-! ## Connector -/

/-- The class `[a-zA-Z0-9_]` of `validTagRegexp`. -/
def tagFirstChar (c : Char) : Bool :=
  ('a' ≤ c && c ≤ 'z') || ('A' ≤ c && c ≤ 'Z') || ('0' ≤ c && c ≤ '9') || c == '_'

/-- The class `[a-zA-Z0-9_.-]` of `validTagRegexp`. -/
def tagRestChar (c : Char) : Bool :=
  ('a' ≤ c && c ≤ 'z') || ('A' ≤ c && c ≤ 'Z') || ('0' ≤ c && c ≤ '9') || c == '_' ||
    c == '.' || c == '-'

/-- Whether `validTagRegexp.MatchString(tag)` holds, for the anchored pattern
`^[a-zA-Z0-9_][a-zA-Z0-9_.-]{0,127}$`. -/
def validTagRegexp (tag : List Char) : Bool :=
  match tag with
  | [] => false
  | c :: cs => tagFirstChar c && decide (cs.length ≤ 127) && cs.all tagRestChar

/-- The options `attachContainer` passes to `ContainerAttach`. -/
def attachOptions : AttachOptions :=
  { Stream := true, Stdin := true, Stdout := true, Stderr := true, Logs := true }

/-- The part of `connector.pullImage` after the policy checks: `ImagePull`, then
`io.Copy` into a fresh `logWriter`, then `writer.Close()`. -/
def connector.pull {σ V : Type} (cli : Client σ) (unmarshal : Unmarshal V) (image : String)
    (w : World σ V) : Option GoError × World σ V :=
  let w1 := w.logf Level.debug "Pulling image image %s..." [Arg.str image]
  let r := cli.ImagePull image w1.engine
  match r.1 with
  | Except.error err =>
    (some (GoError.errorf "failed to pull image %s (%w)" image (GoError.engine err)),
      w1.record (Call.ImagePull image (some err)) r.2)
  | Except.ok pullReader =>
    let w2 := w1.record (Call.ImagePull image none) r.2
    let copied := ioCopy unmarshal logWriter.fresh pullReader.chunks
    let w3 : World σ V :=
      { engine := w2.engine, calls := w2.calls ++ [Call.PullRead pullReader.err],
        logs := w2.logs ++ copied.2 }
    match pullReader.err with
    | some err =>
      (some (GoError.errorf "failed to pull image %s (%w)" image (GoError.engine err)), w3)
    | none =>
      (none, { w3 with logs := w3.logs ++ (copied.1.Close : CloseResult V).logged })

/-- The method `connector.pullImage`. -/
def connector.pullImage {σ V : Type} (cli : Client σ) (config : Config) (unmarshal : Unmarshal V)
    (image : String) (w : World σ V) : Option GoError × World σ V :=
  if config.Deployment.ImagePullPolicy = ImagePullPolicy.Never then (none, w)
  else if config.Deployment.ImagePullPolicy = ImagePullPolicy.IfNotPresent then
    let r := cli.ImageInspect image w.engine
    let w1 := w.record (Call.ImageInspect image r.1) r.2
    let imageExists := r.1.isNone
    let parts := stringsSplit ':' image.toList
    let tag := parts.getD (parts.length - 1) []
    if decide (parts.length > 1) && validTagRegexp tag && imageExists then (none, w1)
    else connector.pull cli unmarshal image w1
  else connector.pull cli unmarshal image w

/-- The method `connector.createContainer`. The overrides are written through
the pointer `c.config.Deployment.ContainerConfig`: when that pointer is not nil
the connector's own configuration receives them, when it is nil they go to a
fresh `container.Config{}`. Returns the result and the configuration afterwards. -/
def connector.createContainer {σ V : Type} (cli : Client σ) (config : Config) (image : String)
    (w : World σ V) : Except GoError connectorContainer × Config × World σ V :=
  let base :=
    match config.Deployment.ContainerConfig with
    | some cc => cc
    | none => ContainerConfig.zero
  let containerConfig : ContainerConfig :=
    { base with
      Image := image, Tty := false, AttachStdin := true, AttachStdout := true,
      AttachStderr := true, StdinOnce := false, OpenStdin := true, Cmd := ["--atp"],
      Env := base.Env ++ ["PYTHON_UNBUFFERED=1"] }
  let config1 : Config :=
    match config.Deployment.ContainerConfig with
    | some _ => { Deployment := { config.Deployment with ContainerConfig := some containerConfig } }
    | none => config
  let r := cli.ContainerCreate containerConfig config1.Deployment.HostConfig
    config1.Deployment.NetworkConfig config1.Deployment.Platform "" w.engine
  let w1 := w.record (Call.ContainerCreate containerConfig config1.Deployment.HostConfig
    config1.Deployment.NetworkConfig config1.Deployment.Platform "" r.1) r.2
  match r.1 with
  | CreateResponse.error err =>
    (Except.error (GoError.errorf "failed to create container from image %s (%w)" image
      (GoError.engine err)), config1, w1)
  | CreateResponse.ok id =>
    (Except.ok { id := id, hijackedResponse := none, multiplexedReader := ⟨none⟩ }, config1, w1)

/-- The rollback of `attachContainer` and `startContainer`: `cnt.Close()`, with
its error, if any, logged as a warning and dropped. -/
def connector.rollback {σ V : Type} (cli : Client σ) (cnt : connectorContainer) (w : World σ V) :
    World σ V :=
  let c := cnt.Close cli w
  match c.1 with
  | some err2 =>
    c.2.logf Level.warning "failed to remove previously-created container %s (%v)"
      [Arg.str cnt.id, Arg.err err2]
  | none => c.2

/-- The method `connector.attachContainer`; returns the error, the container as
the method leaves it, and the world. -/
def connector.attachContainer {σ V : Type} (cli : Client σ) (cnt : connectorContainer)
    (w : World σ V) : Option GoError × connectorContainer × World σ V :=
  let w1 := w.logf Level.debug "Attaching to container %s..." [Arg.str cnt.id]
  let r := cli.ContainerAttach cnt.id attachOptions w1.engine
  match r.1 with
  | Except.error err =>
    let w2 := w1.record (Call.ContainerAttach cnt.id attachOptions (some err)) r.2
    (some (GoError.errorf "failed to attach to container %s (%w)" cnt.id (GoError.engine err)),
      cnt, connector.rollback cli cnt w2)
  | Except.ok hijackedResponse =>
    let w2 := w1.record (Call.ContainerAttach cnt.id attachOptions none) r.2
    (none, { cnt with hijackedResponse := some hijackedResponse,
                      multiplexedReader := ⟨some hijackedResponse.Reader⟩ }, w2)

/-- The method `connector.startContainer`. -/
def connector.startContainer {σ V : Type} (cli : Client σ) (cnt : connectorContainer)
    (w : World σ V) : Option GoError × World σ V :=
  let w1 := w.logf Level.debug "Starting container %s..." [Arg.str cnt.id]
  let r := cli.ContainerStart cnt.id w1.engine
  let w2 := w1.record (Call.ContainerStart cnt.id r.1) r.2
  match r.1 with
  | some err =>
    (some (GoError.errorf "failed to start container %s (%w)" cnt.id (GoError.engine err)),
      connector.rollback cli cnt w2)
  | none => (none, w2)

/-- What `connector.Deploy` returns and leaves behind: the Go pair
`(deployer.Plugin, error)`, the connector's configuration and the world. -/
structure DeployResult (σ V : Type) where
  handle : Option connectorContainer
  err : Option GoError
  config : Config
  world : World σ V

/-- The method `connector.Deploy`. -/
def connector.Deploy {σ V : Type} (cli : Client σ) (config : Config) (unmarshal : Unmarshal V)
    (image : String) (w : World σ V) : DeployResult σ V :=
  match connector.pullImage cli config unmarshal image w with
  | (some err, w1) => ⟨none, some err, config, w1⟩
  | (none, w1) =>
    let w2 := w1.logf Level.info "Creating container from image %s..." [Arg.str image]
    match connector.createContainer cli config image w2 with
    | (Except.error err, config1, w3) => ⟨none, some err, config1, w3⟩
    | (Except.ok cnt, config1, w3) =>
      match connector.attachContainer cli cnt w3 with
      | (some err, _, w4) => ⟨none, some err, config1, w4⟩
      | (none, cnt1, w4) =>
        let w5 :=
          if config1.Deployment.StartDelayMS > 0 then
            w4.record (Call.Sleep config1.Deployment.StartDelayMS) w4.engine
          else w4
        match connector.startContainer cli cnt1 w5 with
        | (some err, w6) => ⟨none, some err, config1, w6⟩
        | (none, w6) =>
          ⟨some cnt1, none, config1, w6.logf Level.info "Container started." []⟩

/-! ## Reading a trace -/

/-- The number of `ImagePull` calls in a trace. -/
def pullCount (calls : List Call) : Nat :=
  calls.countP (fun c => match c with | Call.ImagePull _ _ => true | _ => false)

/-- The ids of the containers the engine created, in order. -/
def createdIds (calls : List Call) : List String :=
  calls.filterMap (fun c => match c with
    | Call.ContainerCreate _ _ _ _ _ (CreateResponse.ok id) => some id | _ => none)

/-- The ids `ContainerAttach` was called for, in order. -/
def attachIds (calls : List Call) : List String :=
  calls.filterMap (fun c => match c with | Call.ContainerAttach id _ _ => some id | _ => none)

/-- The ids `ContainerStart` was called for, in order. -/
def startIds (calls : List Call) : List String :=
  calls.filterMap (fun c => match c with | Call.ContainerStart id _ => some id | _ => none)

/-- The ids `ContainerStop` was called for, in order. -/
def stopIds (calls : List Call) : List String :=
  calls.filterMap (fun c => match c with | Call.ContainerStop id _ => some id | _ => none)

/-- Whether a call in a trace went through without an error (closing the
transport and sleeping do not count as failures). -/
def Call.succeeded : Call → Bool
  | Call.ImageInspect _ err => err.isNone
  | Call.ImagePull _ err => err.isNone
  | Call.PullRead err => err.isNone
  | Call.ContainerCreate _ _ _ _ _ (CreateResponse.ok _) => true
  | Call.ContainerCreate _ _ _ _ _ (CreateResponse.error _) => false
  | Call.ContainerAttach _ _ err => err.isNone
  | Call.Sleep _ => true
  | Call.ContainerStart _ err => err.isNone
  | Call.HijackedClose _ => true
  | Call.HijackedCloseWrite _ _ => true
  | Call.ContainerStop _ err => err.isNone

/-- Whether a call belongs to pulling the image: `ImagePull` or the reading of
its stream. -/
def Call.isPull : Call → Bool
  | Call.ImagePull _ _ => true
  | Call.PullRead _ => true
  | _ => false

/-- Whether a call is a `ContainerCreate`. -/
def Call.isCreate : Call → Bool
  | Call.ContainerCreate _ _ _ _ _ _ => true
  | _ => false

/-- Whether a call is a `ContainerAttach`. -/
def Call.isAttach : Call → Bool
  | Call.ContainerAttach _ _ _ => true
  | _ => false

/-- Whether a call is a `ContainerStart`. -/
def Call.isStart : Call → Bool
  | Call.ContainerStart _ _ => true
  | _ => false

/-- The `Sleep` of `Deploy`, when the configured delay is positive. -/
def sleepCalls (ms : Int) : List Call :=
  if ms > 0 then [Call.Sleep ms] else []

/-- The overrides `createContainer` forces on the `container.Config` it submits
for `image`. -/
def ContainerConfig.forcedFor (cc : ContainerConfig) (image : String) : Prop :=
  cc.Image = image ∧ cc.Cmd = ["--atp"] ∧ cc.Tty = false ∧ cc.AttachStdin = true ∧
    cc.AttachStdout = true ∧ cc.AttachStderr = true ∧ cc.OpenStdin = true ∧ cc.StdinOnce = false

/-- The `Env` of every `container.Config` submitted to `ContainerCreate`, in order. -/
def submittedEnvs (calls : List Call) : List (List String) :=
  calls.filterMap (fun c => match c with
    | Call.ContainerCreate cc _ _ _ _ _ => some cc.Env | _ => none)

/-! ## Engines and configurations for the examples -/

/-- How a scripted engine answers: the error of each method, `none` for success. -/
structure Script where
  inspectErr : Option EngineError
  pullErr : Option EngineError
  readErr : Option EngineError
  createErr : Option EngineError
  attachErr : Option EngineError
  startErr : Option EngineError
  stopErr : Option EngineError

/-- A scripted engine. Its state counts the stop requests served: the first is
answered as scripted, every later one with "not found". A successful pull
streams `"a\nb"`, `"c\n"`; a successful create returns the id `c1`. -/
def Script.client (sc : Script) : Client Nat :=
  { ImageInspect := fun _ n => (sc.inspectErr, n)
    ImagePull := fun _ n =>
      (match sc.pullErr with
        | some e => Except.error e
        | none => Except.ok ⟨[[97, 10, 98], [99, 10]], sc.readErr⟩, n)
    ContainerCreate := fun _ _ _ _ _ n =>
      (match sc.createErr with
        | some e => CreateResponse.error e
        | none => CreateResponse.ok "c1", n)
    ContainerAttach := fun _ _ n =>
      (match sc.attachErr with
        | some e => Except.error e
        | none => Except.ok ⟨1, 1⟩, n)
    ContainerStart := fun _ n => (sc.startErr, n)
    ContainerStop := fun _ n =>
      (if n = 0 then sc.stopErr else some ⟨"No such container", true⟩, n + 1)
    HijackedClose := fun _ n => n
    HijackedCloseWrite := fun _ n => (none, n) }

/-- The script on which every method succeeds. -/
def Script.allOk : Script := ⟨none, none, none, none, none, none, none⟩

/-- The script on which the attach fails and the stop of the rollback fails too. -/
def Script.attachFails : Script :=
  { Script.allOk with
    attachErr := some ⟨"attach refused", false⟩, stopErr := some ⟨"stop failed", false⟩ }

/-- A decoder that rejects every line. -/
def noJSON : Unmarshal String := fun _ => none

/-- The configuration of `TestSimpleInOut` (`{}`) with pull policy `policy`: no
`ContainerConfig`, no start delay. -/
def plainConfig (policy : ImagePullPolicy) : Config :=
  ⟨⟨none, none, none, none, policy, 0⟩⟩

/-- A configuration whose `ContainerConfig` is set, with `Env = ["A=1"]`. -/
def envConfig : Config :=
  ⟨⟨some { ContainerConfig.zero with Env := ["A=1"] }, none, none, none,
    ImagePullPolicy.Never, 0⟩⟩

/-- Whether a line begins, after JSON whitespace, with an opening brace, as
every JSON object does (RFC 8259: an object is written between braces). -/
def jsonObjectStart : List Byte → Bool
  | [] => false
  | b :: bs =>
    if b = 32 ∨ b = 9 ∨ b = 10 ∨ b = 13 then jsonObjectStart bs
    else decide (b = 123)

/-- The line `null`. -/
def nullLine : List Byte := [110, 117, 108, 108]

/-- What `json.Unmarshal(line, &map[string]any{})` does on the two lines of the
example below: on `null` it returns no error and leaves the map nil (the JSON
null value unmarshals into a map by setting it to nil), so no key is present;
on the empty line it returns an error. Only these two lines are decoded in the
example; every other line is rejected here. -/
def unmarshalNull : Unmarshal String :=
  fun line => if line = nullLine then some (fun _ => none) else none

/-- The engine state in which `connectorContainer.Close` issues its stop
request when it starts in state `s`: `s` itself for a handle without a
transport, the state after `Close` and `CloseWrite` of the transport otherwise. -/
def connectorContainer.stopState {σ : Type} (cli : Client σ) (c : connectorContainer) (s : σ) : σ :=
  match c.hijackedResponse with
  | some h => (cli.HijackedCloseWrite h (cli.HijackedClose h s)).2
  | none => s

/-! ## Lemmas on splitting -/

section Splitting

variable {α : Type} [DecidableEq α]

theorem stringsSplit_ne_nil (sep : α) (s : List α) : stringsSplit sep s ≠ [] := by
  cases s with
  | nil => simp [stringsSplit]
  | cons c cs =>
    unfold stringsSplit
    split
    · simp
    · split <;> simp

/-- Splitting is reading line by line: the pieces are the complete lines
followed by the trailing text. -/
theorem stringsSplit_eq_lines (sep : α) (s cur : List α) :
    (stringsSplit sep s).modifyHead (fun p => cur ++ p) =
      completeLinesFrom sep cur s ++ [trailingFrom sep cur s] := by
  induction s generalizing cur with
  | nil => simp [stringsSplit, completeLinesFrom, trailingFrom, List.modifyHead]
  | cons c cs ih =>
    by_cases hc : c = sep
    · have h0 := ih []
      simp only [List.nil_append] at h0
      have hid : (stringsSplit sep cs).modifyHead (fun p => p) = stringsSplit sep cs := by
        cases stringsSplit sep cs <;> simp [List.modifyHead]
      rw [hid] at h0
      simp [stringsSplit, completeLinesFrom, trailingFrom, hc, List.modifyHead, h0]
    · have h1 := ih (cur ++ [c])
      simp only [stringsSplit, completeLinesFrom, trailingFrom, hc, if_false]
      rw [← h1]
      cases hs : stringsSplit sep cs with
      | nil => exact absurd hs (stringsSplit_ne_nil sep cs)
      | cons p ps => simp [List.modifyHead]

theorem stringsSplit_eq (sep : α) (s : List α) :
    stringsSplit sep s = completeLinesFrom sep [] s ++ [trailingFrom sep [] s] := by
  have h := stringsSplit_eq_lines sep s []
  have hid : (stringsSplit sep s).modifyHead (fun p => [] ++ p) = stringsSplit sep s := by
    cases stringsSplit sep s <;> simp [List.modifyHead]
  rw [hid] at h
  exact h

theorem completeLinesFrom_append (sep : α) (x y cur : List α) :
    completeLinesFrom sep cur (x ++ y) =
      completeLinesFrom sep cur x ++ completeLinesFrom sep (trailingFrom sep cur x) y := by
  induction x generalizing cur with
  | nil => simp [completeLinesFrom, trailingFrom]
  | cons c cs ih =>
    by_cases hc : c = sep <;> simp [completeLinesFrom, trailingFrom, hc, ih]

theorem trailingFrom_append (sep : α) (x y cur : List α) :
    trailingFrom sep cur (x ++ y) = trailingFrom sep (trailingFrom sep cur x) y := by
  induction x generalizing cur with
  | nil => simp [trailingFrom]
  | cons c cs ih =>
    by_cases hc : c = sep <;> simp [trailingFrom, hc, ih]

theorem trailingFrom_of_not_mem (sep : α) (x cur : List α) (h : sep ∉ x) :
    trailingFrom sep cur x = cur ++ x := by
  induction x generalizing cur with
  | nil => simp [trailingFrom]
  | cons c cs ih =>
    have hc : ¬ c = sep := fun e => h (by simp [e])
    have hcs : sep ∉ cs := fun e => h (by simp [e])
    simp [trailingFrom, hc, ih _ hcs]

theorem completeLinesFrom_of_not_mem (sep : α) (x cur : List α) (h : sep ∉ x) :
    completeLinesFrom sep cur x = [] := by
  induction x generalizing cur with
  | nil => simp [completeLinesFrom]
  | cons c cs ih =>
    have hc : ¬ c = sep := fun e => h (by simp [e])
    have hcs : sep ∉ cs := fun e => h (by simp [e])
    simp [completeLinesFrom, hc, ih _ hcs]

theorem not_mem_trailingFrom (sep : α) (x cur : List α) (h : sep ∉ cur) :
    sep ∉ trailingFrom sep cur x := by
  induction x generalizing cur with
  | nil => simpa [trailingFrom] using h
  | cons c cs ih =>
    by_cases hc : c = sep
    · simp only [trailingFrom, hc, if_true]
      exact ih [] (by simp)
    · simp only [trailingFrom, hc, if_false]
      apply ih
      intro hm
      rcases List.mem_append.mp hm with hm | hm
      · exact h hm
      · simp at hm
        exact hc hm.symm

/-- With a buffer free of separators, reading buffer and chunk from scratch is
reading the chunk with the buffer as the text read so far. -/
theorem completeLinesFrom_buffer (sep : α) (b p : List α) (h : sep ∉ b) :
    completeLinesFrom sep [] (b ++ p) = completeLinesFrom sep b p := by
  rw [completeLinesFrom_append, completeLinesFrom_of_not_mem sep b [] h,
    trailingFrom_of_not_mem sep b [] h]
  simp

theorem trailingFrom_buffer (sep : α) (b p : List α) (h : sep ∉ b) :
    trailingFrom sep [] (b ++ p) = trailingFrom sep b p := by
  rw [trailingFrom_append, trailingFrom_of_not_mem sep b [] h]
  simp

end Splitting

/-- A counted loop over the first `n` elements is a map over `take n`. -/
theorem range_map_getD {β γ : Type} (f : β → γ) (d : β) (l : List β) (n : Nat) (h : n ≤ l.length) :
    (List.range n).map (fun i => f (l.getD i d)) = (l.take n).map f := by
  induction n with
  | zero => simp
  | succ k ih =>
    have hk : k < l.length := h
    rw [List.range_succ, List.map_append, ih (Nat.le_of_lt hk), List.take_succ, List.map_append,
      List.getElem?_eq_getElem hk]
    simp [List.getD_eq_getElem?_getD, List.getElem?_eq_getElem hk]

/-! ## What `Write` does -/

section WriteLemmas

variable {V : Type}

/-- The statements of one `Write`: one for each complete line of buffer and
chunk except the last of them. -/
theorem Write_logged (unmarshal : Unmarshal V) (l : logWriter) (p : List Byte) :
    (l.Write unmarshal p).logged =
      ((completeLines (l.buffer ++ p)).dropLast).map (logLine unmarshal) := by
  unfold logWriter.Write completeLines
  simp only
  rw [range_map_getD _ _ _ _ (by omega), stringsSplit_eq]
  congr 1
  rw [List.dropLast_eq_take]
  simp only [List.length_append, List.length_singleton]
  rw [List.take_append_of_le_length (by omega)]
  congr 1

/-- The buffer after one `Write`: the text after the last newline. -/
theorem Write_buffer (unmarshal : Unmarshal V) (l : logWriter) (p : List Byte) :
    (l.Write unmarshal p).writer.buffer = trailingFragment (l.buffer ++ p) := by
  unfold logWriter.Write trailingFragment
  simp only
  rw [stringsSplit_eq]
  simp [List.getD_eq_getElem?_getD]

/-- Feeding chunks to a writer whose buffer holds no newline. -/
theorem ioCopy_spec (unmarshal : Unmarshal V) (chunks : List (List Byte)) (b : List Byte)
    (hb : newline ∉ b) :
    (ioCopy unmarshal ⟨b⟩ chunks).1.buffer = trailingFrom newline b chunks.flatten ∧
      List.Sublist (ioCopy unmarshal ⟨b⟩ chunks).2
        ((completeLinesFrom newline b chunks.flatten).map (logLine unmarshal)) := by
  induction chunks generalizing b with
  | nil => simp [ioCopy, trailingFrom, completeLinesFrom]
  | cons p ps ih =>
    have hbuf : ((⟨b⟩ : logWriter).Write unmarshal p).writer.buffer = trailingFrom newline b p := by
      rw [Write_buffer]
      exact trailingFrom_buffer newline b p hb
    have hlog : ((⟨b⟩ : logWriter).Write unmarshal p).logged =
        ((completeLinesFrom newline b p).dropLast).map (logLine unmarshal) := by
      rw [Write_logged]
      unfold completeLines
      rw [completeLinesFrom_buffer newline b p hb]
    have hw : ((⟨b⟩ : logWriter).Write unmarshal p).writer = ⟨trailingFrom newline b p⟩ := by
      cases hh : ((⟨b⟩ : logWriter).Write unmarshal p).writer with
      | mk buf =>
        rw [hh] at hbuf
        simp only at hbuf
        rw [hbuf]
    have ih1 := ih (trailingFrom newline b p) (not_mem_trailingFrom newline p b hb)
    simp only [ioCopy, List.flatten_cons]
    rw [hw, hlog, trailingFrom_append, completeLinesFrom_append, List.map_append]
    exact ⟨ih1.1, List.Sublist.append ((List.dropLast_sublist _).map _) ih1.2⟩

end WriteLemmas

/-! ## The progress log writer: claims -/

section LogWriterClaims

variable {V : Type}

/-- C1, evaluated at `Write("a\nb\n")` on an empty buffer: the stream has the two
complete lines `a` and `b`, the call logs one statement, for `a`, and leaves
the buffer empty, so the line `b` is logged by no call. -/
theorem Write_two_lines_logs_one (unmarshal : Unmarshal V) :
    completeLines [97, 10, 98, 10] = [[97], [98]] ∧
      (logWriter.fresh.Write unmarshal [97, 10, 98, 10]).logged = [logLine unmarshal [97]] ∧
      (logWriter.fresh.Write unmarshal [97, 10, 98, 10]).writer.buffer = [] := by
  exact ⟨by decide, rfl, rfl⟩

/-- C2, evaluated on the stream `"a\nb\n"`: fed as one chunk the run logs one
statement (for `a`), fed as the two chunks `"a\n"`, `"b\n"` it logs none, so
the statements of a run depend on the chunking. -/
theorem runLog_depends_on_chunking (unmarshal : Unmarshal V) :
    ([[97, 10, 98, 10]] : List (List Byte)).flatten = [[97, 10], [98, 10]].flatten ∧
      runLog unmarshal [[97, 10, 98, 10]] = [logLine unmarshal [97]] ∧
      runLog unmarshal [[97, 10], [98, 10]] = [] ∧
      runLog unmarshal [[97, 10, 98, 10]] ≠ runLog unmarshal [[97, 10], [98, 10]] := by
  have h1 : runLog unmarshal [[97, 10, 98, 10]] = [logLine unmarshal [97]] := rfl
  have h2 : runLog unmarshal [[97, 10], [98, 10]] = [] := rfl
  refine ⟨by decide, h1, h2, ?_⟩
  rw [h1, h2]
  simp

/-- C3: for every chunking `chunks` of a stream fed to a fresh `logWriter`, the
buffer after the writes is the text after the last newline; the statements of
the writes all come from newline-terminated lines (they are a sublist of the
statements of the complete lines, so none is for the trailing fragment); when
the fragment is non-empty `Close` logs exactly one statement, the fragment
verbatim, empties the buffer, and a further `Close` logs nothing; when the
fragment is empty `Close` logs nothing. -/
theorem Close_flushes_trailing_fragment (unmarshal : Unmarshal V) (chunks : List (List Byte)) :
    (ioCopy unmarshal logWriter.fresh chunks).1.buffer = trailingFragment chunks.flatten ∧
      List.Sublist (ioCopy unmarshal logWriter.fresh chunks).2
        ((completeLines chunks.flatten).map (logLine unmarshal)) ∧
      (trailingFragment chunks.flatten ≠ [] →
        ((ioCopy unmarshal logWriter.fresh chunks).1.Close : CloseResult V).logged =
            [⟨Level.debug, "%s", [Arg.bytes (trailingFragment chunks.flatten)]⟩] ∧
          ((ioCopy unmarshal logWriter.fresh chunks).1.Close : CloseResult V).err = none ∧
          ((ioCopy unmarshal logWriter.fresh chunks).1.Close : CloseResult V).writer.buffer = [] ∧
          ((((ioCopy unmarshal logWriter.fresh chunks).1.Close : CloseResult V).writer.Close :
            CloseResult V).logged = [])) ∧
      (trailingFragment chunks.flatten = [] →
        ((ioCopy unmarshal logWriter.fresh chunks).1.Close : CloseResult V).logged = []) := by
  have h := ioCopy_spec unmarshal chunks [] (by simp)
  have hb : (ioCopy unmarshal logWriter.fresh chunks).1.buffer = trailingFragment chunks.flatten :=
    h.1
  refine ⟨hb, h.2, ?_, ?_⟩
  · intro hne
    have hpos : 0 < (trailingFragment chunks.flatten).length := List.length_pos.mpr hne
    simp [logWriter.Close, hpos, hb]
  · intro he
    simp [logWriter.Close, hb, he]

/-- C3 at the stream `"a\nbc"` cut as `"a\nb"`, `"c"`: the fragment `bc` is
non-empty, no write logs anything, `Close` logs `bc` once. -/
theorem Close_flushes_trailing_fragment_witness :
    trailingFragment ([[97, 10, 98], [99]] : List (List Byte)).flatten ≠ [] ∧
      ((ioCopy (fun _ => (none : Option (GoMap String))) logWriter.fresh
          [[97, 10, 98], [99]]).1.Close : CloseResult String).logged =
        [⟨Level.debug, "%s", [Arg.bytes [98, 99]]⟩] :=
  ⟨by decide,
    ((Close_flushes_trailing_fragment (fun _ => (none : Option (GoMap String)))
      [[97, 10, 98], [99]]).2.2.1 (by decide)).1⟩

/-- C10, amended: `Write` returns `(len(p), nil)` for every input, and every
statement it logs is the statement of one of the split parts `part`: the raw
part when `json.Unmarshal` returns an error on it; when it returns no error
(as it does on every JSON object, and on the line `null`), `"%s %s: %s"` of
status, id and progress when the progress key is present; otherwise `"%s: %s"`
of status and id when the id key is present; otherwise `"%s"` of status. -/
theorem Write_statement_format (unmarshal : Unmarshal V) (l : logWriter) (p : List Byte) :
    (l.Write unmarshal p).n = p.length ∧ (l.Write unmarshal p).err = none ∧
      ∀ e ∈ (l.Write unmarshal p).logged, ∃ part ∈ stringsSplit newline (l.buffer ++ p),
        (unmarshal part = none → e = ⟨Level.debug, "%s", [Arg.bytes part]⟩) ∧
        (∀ line, unmarshal part = some line →
          (∀ progress, line "progress" = some progress →
            e = ⟨Level.debug, "%s %s: %s",
              [Arg.any (line.index "status"), Arg.any (line.index "id"), Arg.any progress]⟩) ∧
          (line "progress" = none → ∀ id, line "id" = some id →
            e = ⟨Level.debug, "%s: %s", [Arg.any (line.index "status"), Arg.any id]⟩) ∧
          (line "progress" = none → line "id" = none →
            e = ⟨Level.debug, "%s", [Arg.any (line.index "status")]⟩)) := by
  refine ⟨rfl, rfl, ?_⟩
  intro e he
  rw [Write_logged] at he
  obtain ⟨part, hpart, rfl⟩ := List.mem_map.mp he
  have hmem : part ∈ stringsSplit newline (l.buffer ++ p) := by
    rw [stringsSplit_eq]
    exact List.mem_append_left _ ((List.dropLast_sublist _).subset hpart)
  refine ⟨part, hmem, ?_, ?_⟩
  · intro hn
    simp [logLine, hn]
  · intro line hl
    refine ⟨?_, ?_, ?_⟩
    · intro progress hp
      simp [logLine, hl, hp]
    · intro hp id hi
      simp [logLine, hl, hp, hi]
    · intro hp hi
      simp [logLine, hl, hp, hi]

/-- C10 as worded fails on the line `null`: it is no JSON object (it does not
begin with a brace), yet `json.Unmarshal` accepts it, and `Write("null\n\n")` on
an empty buffer logs for it the statement `"%s"` of the nil status, which is
not the raw line: no split part that is not a JSON object has the logged
statement as its raw statement. -/
theorem Write_null_line_not_raw :
    jsonObjectStart nullLine = false ∧
      (logWriter.fresh.Write unmarshalNull (nullLine ++ [10, 10])).logged =
        [⟨Level.debug, "%s", [Arg.any none]⟩] ∧
      ¬ (∀ e ∈ (logWriter.fresh.Write unmarshalNull (nullLine ++ [10, 10])).logged,
          ∃ part ∈ stringsSplit newline (logWriter.fresh.buffer ++ (nullLine ++ [10, 10])),
            (jsonObjectStart part = false → e = ⟨Level.debug, "%s", [Arg.bytes part]⟩)) := by
  have hl : (logWriter.fresh.Write unmarshalNull (nullLine ++ [10, 10])).logged =
      [⟨Level.debug, "%s", [Arg.any none]⟩] := by decide
  have hs : stringsSplit newline (logWriter.fresh.buffer ++ (nullLine ++ [10, 10])) =
      [nullLine, [], []] := by decide
  refine ⟨by decide, hl, ?_⟩
  rw [hl, hs]
  intro hall
  obtain ⟨part, hpart, himp⟩ := hall _ (List.mem_singleton.mpr rfl)
  simp only [List.mem_cons, List.mem_singleton, List.not_mem_nil, or_false] at hpart
  rcases hpart with rfl | rfl | rfl
  · have := himp (by decide)
    simp at this
  · have := himp (by decide)
    simp at this
  · have := himp (by decide)
    simp at this

end LogWriterClaims

/-! ## The pull decision -/

section PullClaims

variable {σ V : Type}

end PullClaims

/-! ## The container handle -/

section HandleLemmas

variable {σ V : Type}

end HandleLemmas

/-! ## The steps of a deployment -/

section StepLemmas

variable {σ V : Type}

end StepLemmas

/-! ## Deployment: claims -/

section DeployClaims

variable {σ V : Type}

theorem sleepCalls_ids (ms : Int) :
    createdIds (sleepCalls ms) = [] ∧ attachIds (sleepCalls ms) = [] ∧
      startIds (sleepCalls ms) = [] ∧ stopIds (sleepCalls ms) = [] ∧
      (sleepCalls ms).any (fun c => (c.isAttach || c.isStart) && !c.succeeded) = false ∧
      (sleepCalls ms).any (fun c => (c.isPull || c.isCreate) && !c.succeeded) = false ∧
      ∀ c ∈ sleepCalls ms, c.succeeded = true := by
  unfold sleepCalls
  split <;>
    simp [createdIds, attachIds, startIds, stopIds, Call.isAttach, Call.isStart, Call.isPull,
      Call.isCreate, Call.succeeded]

/-- A pull that the engine serves without error. -/
theorem pull_ok (cli : Client σ) (unmarshal : Unmarshal V) (image : String) (w : World σ V)
    (rd : PullReader) (s1 : σ) (hpull : cli.ImagePull image w.engine = (Except.ok rd, s1))
    (hrd : rd.err = none) :
    (connector.pull cli unmarshal image w).1 = none ∧
      (connector.pull cli unmarshal image w).2.engine = s1 ∧
      (connector.pull cli unmarshal image w).2.calls =
        w.calls ++ [Call.ImagePull image none, Call.PullRead none] := by
  simp [connector.pull, World.logf, World.record, hpull, hrd]

/-- A creation that the engine serves without error. -/
theorem createContainer_ok (cli : Client σ) (config : Config) (image : String) (w : World σ V)
    (id : String) (s2 : σ)
    (hcreate : cli.ContainerCreate
      { (config.Deployment.ContainerConfig.getD ContainerConfig.zero) with
        Image := image, Tty := false, AttachStdin := true, AttachStdout := true,
        AttachStderr := true, StdinOnce := false, OpenStdin := true, Cmd := ["--atp"],
        Env := (config.Deployment.ContainerConfig.getD ContainerConfig.zero).Env ++
          ["PYTHON_UNBUFFERED=1"] }
      config.Deployment.HostConfig config.Deployment.NetworkConfig
      config.Deployment.Platform "" w.engine = (CreateResponse.ok id, s2)) :
    (connector.createContainer cli config image w).1 =
        Except.ok { id := id, hijackedResponse := none, multiplexedReader := ⟨none⟩ } ∧
      (connector.createContainer cli config image w).2.1.Deployment.StartDelayMS =
        config.Deployment.StartDelayMS ∧
      (connector.createContainer cli config image w).2.2.engine = s2 ∧
      (connector.createContainer cli config image w).2.2.calls =
        w.calls ++ [Call.ContainerCreate
          { (config.Deployment.ContainerConfig.getD ContainerConfig.zero) with
            Image := image, Tty := false, AttachStdin := true, AttachStdout := true,
            AttachStderr := true, StdinOnce := false, OpenStdin := true, Cmd := ["--atp"],
            Env := (config.Deployment.ContainerConfig.getD ContainerConfig.zero).Env ++
              ["PYTHON_UNBUFFERED=1"] }
          config.Deployment.HostConfig config.Deployment.NetworkConfig
          config.Deployment.Platform "" (CreateResponse.ok id)] := by
  cases hc : config.Deployment.ContainerConfig with
  | none =>
    rw [hc] at hcreate
    simp only [Option.getD_none] at hcreate ⊢
    simp [connector.createContainer, hc, World.record, hcreate]
  | some base =>
    rw [hc] at hcreate
    simp only [Option.getD_some] at hcreate ⊢
    simp [connector.createContainer, hc, World.record, hcreate]

/-- An attach that the engine serves without error. -/
theorem attachContainer_ok (cli : Client σ) (cnt : connectorContainer) (w : World σ V)
    (h : HijackedResponse) (s3 : σ)
    (hattach : cli.ContainerAttach cnt.id attachOptions w.engine = (Except.ok h, s3)) :
    (connector.attachContainer cli cnt w).1 = none ∧
      (connector.attachContainer cli cnt w).2.1 =
        { id := cnt.id, hijackedResponse := some h, multiplexedReader := ⟨some h.Reader⟩ } ∧
      (connector.attachContainer cli cnt w).2.2.engine = s3 ∧
      (connector.attachContainer cli cnt w).2.2.calls =
        w.calls ++ [Call.ContainerAttach cnt.id attachOptions none] := by
  simp [connector.attachContainer, World.logf, World.record, hattach]

/-- A start that the engine serves without error. -/
theorem startContainer_ok (cli : Client σ) (cnt : connectorContainer) (w : World σ V) (s4 : σ)
    (hstart : cli.ContainerStart cnt.id w.engine = (none, s4)) :
    (connector.startContainer cli cnt w).1 = none ∧
      (connector.startContainer cli cnt w).2.engine = s4 ∧
      (connector.startContainer cli cnt w).2.calls =
        w.calls ++ [Call.ContainerStart cnt.id none] := by
  simp [connector.startContainer, World.logf, World.record, hstart]

/-- C7: for every engine `cli`, engine state `s`, configuration and image, under
policy `Always`: when `cli.ImagePull` of the image answers a stream that reads
to its end without error, `cli.ContainerCreate` of the submitted configuration
`cc` answers the id `id`, `cli.ContainerAttach` of `id` answers the connection
`h` and `cli.ContainerStart` of `id` answers no error (each asked in the state
the previous call left), then `Deploy` makes exactly these calls, in this
order: `ImagePull` (and the reading of its stream), `ContainerCreate` of `cc`,
`ContainerAttach` of `id`, the start delay if one is configured,
`ContainerStart` of `id`; it leaves the engine in the state the start
returned, makes no stop, returns a nil error and the handle of `id` attached
to `h`, whose `ID()` is `id`. The submitted `cc` is the configured
`ContainerConfig` (or the zero value) with the forced overrides: the requested
image, command `["--atp"]`, no tty, stdin, stdout and stderr attached, stdin
open and not once, and the unbuffered-output variable appended to `Env`. -/
theorem Deploy_success_trace (cli : Client σ) (config : Config) (unmarshal : Unmarshal V)
    (image : String) (s : σ) (rd : PullReader) (id : String) (h : HijackedResponse)
    (s1 s2 s3 s4 : σ) :
    ∀ base, base = config.Deployment.ContainerConfig.getD ContainerConfig.zero →
    ∀ cc : ContainerConfig, cc = { base with
        Image := image, Tty := false, AttachStdin := true, AttachStdout := true,
        AttachStderr := true, StdinOnce := false, OpenStdin := true, Cmd := ["--atp"],
        Env := base.Env ++ ["PYTHON_UNBUFFERED=1"] } →
    config.Deployment.ImagePullPolicy = ImagePullPolicy.Always →
    cli.ImagePull image s = (Except.ok rd, s1) → rd.err = none →
    cli.ContainerCreate cc config.Deployment.HostConfig config.Deployment.NetworkConfig
      config.Deployment.Platform "" s1 = (CreateResponse.ok id, s2) →
    cli.ContainerAttach id attachOptions s2 = (Except.ok h, s3) →
    cli.ContainerStart id s3 = (none, s4) →
    ∀ R, R = connector.Deploy cli config unmarshal image (World.init s) →
      ContainerConfig.forcedFor cc image ∧
      R.world.calls =
        [Call.ImagePull image none, Call.PullRead none,
         Call.ContainerCreate cc config.Deployment.HostConfig config.Deployment.NetworkConfig
           config.Deployment.Platform "" (CreateResponse.ok id),
         Call.ContainerAttach id attachOptions none] ++
        sleepCalls config.Deployment.StartDelayMS ++ [Call.ContainerStart id none] ∧
      R.world.engine = s4 ∧
      pullCount R.world.calls = 1 ∧ createdIds R.world.calls = [id] ∧
      attachIds R.world.calls = [id] ∧ startIds R.world.calls = [id] ∧
      stopIds R.world.calls = [] ∧
      R.err = none ∧
      R.handle = some { id := id, hijackedResponse := some h,
                        multiplexedReader := ⟨some h.Reader⟩ } ∧
      ∀ cnt, R.handle = some cnt → cnt.ID = id := by
  intro base hbase cc hcc hpol hpull hrd hcreate hattach hstart R hR
  have hforced : ContainerConfig.forcedFor cc image := by
    rw [hcc]
    simp [ContainerConfig.forcedFor]
  subst hbase
  have hpi : connector.pullImage cli config unmarshal image (World.init s) =
      connector.pull cli unmarshal image (World.init s) := by
    simp [connector.pullImage, hpol]
  obtain ⟨p1, p2, p3⟩ := pull_ok cli unmarshal image (World.init s : World σ V) rd s1 hpull hrd
  rcases hp : connector.pull cli unmarshal image (World.init s : World σ V) with ⟨perr, w1⟩
  rw [hp] at p1 p2 p3
  simp only at p1 p2 p3
  subst p1
  obtain ⟨c1, c2, c3, c4⟩ := createContainer_ok cli config image
    (w1.logf Level.info "Creating container from image %s..." [Arg.str image]) id s2
    (by rw [← hcc]; simpa [World.logf, p2] using hcreate)
  rcases hc : connector.createContainer cli config image
    (w1.logf Level.info "Creating container from image %s..." [Arg.str image]) with
    ⟨cres, config1, w3⟩
  rw [hc] at c1 c2 c3 c4
  simp only [World.logf] at c1 c2 c3 c4
  rw [← hcc] at c4
  subst c1
  obtain ⟨a1, a2, a3, a4⟩ := attachContainer_ok cli
    { id := id, hijackedResponse := none, multiplexedReader := ⟨none⟩ } w3 h s3
    (by rw [c3]; exact hattach)
  rcases ha : connector.attachContainer cli
    { id := id, hijackedResponse := none, multiplexedReader := ⟨none⟩ } w3 with ⟨aerr, cnt1, w4⟩
  rw [ha] at a1 a2 a3 a4
  simp only at a1 a2 a3 a4
  subst a1
  subst a2
  have hw5e : (if config1.Deployment.StartDelayMS > 0 then
        w4.record (Call.Sleep config1.Deployment.StartDelayMS) w4.engine
      else w4).engine = s3 := by
    split <;> simp [World.record, a3]
  have hw5c : (if config1.Deployment.StartDelayMS > 0 then
        w4.record (Call.Sleep config1.Deployment.StartDelayMS) w4.engine
      else w4).calls = w4.calls ++ sleepCalls config.Deployment.StartDelayMS := by
    rw [c2]
    unfold sleepCalls
    split <;> simp [World.record]
  obtain ⟨t1, t2, t3⟩ := startContainer_ok cli
    { id := id, hijackedResponse := some h, multiplexedReader := ⟨some h.Reader⟩ }
    (if config1.Deployment.StartDelayMS > 0 then
        w4.record (Call.Sleep config1.Deployment.StartDelayMS) w4.engine
      else w4) s4 (by rw [hw5e]; exact hstart)
  rcases hs : connector.startContainer cli
    { id := id, hijackedResponse := some h, multiplexedReader := ⟨some h.Reader⟩ }
    (if config1.Deployment.StartDelayMS > 0 then
        w4.record (Call.Sleep config1.Deployment.StartDelayMS) w4.engine
      else w4) with ⟨serr, w6⟩
  rw [hs] at t1 t2 t3
  simp only at t1 t2 t3
  subst t1
  have hD : R = DeployResult.mk (some ⟨id, some h, ⟨some h.Reader⟩⟩) none config1
      (w6.logf Level.info "Container started." []) := by
    rw [hR]
    simp [connector.Deploy, hpi, hp, hc, ha, hs]
  have hcalls : (w6.logf Level.info "Container started." []).calls =
      [Call.ImagePull image none, Call.PullRead none,
         Call.ContainerCreate cc config.Deployment.HostConfig config.Deployment.NetworkConfig
           config.Deployment.Platform "" (CreateResponse.ok id),
         Call.ContainerAttach id attachOptions none] ++
        sleepCalls config.Deployment.StartDelayMS ++ [Call.ContainerStart id none] := by
    simp [World.logf, t3, hw5c, a4, c4, p3, World.init]
  obtain ⟨q1, q2, q3, q4, -, -, -⟩ := sleepCalls_ids config.Deployment.StartDelayMS
  have hq0 : pullCount (sleepCalls config.Deployment.StartDelayMS) = 0 := by
    unfold sleepCalls pullCount
    split <;> simp
  simp only [createdIds, attachIds, startIds, stopIds] at q1 q2 q3 q4
  rw [hD]
  refine ⟨hforced, hcalls, by simp [World.logf, t2], ?_, ?_, ?_, ?_, ?_, rfl, rfl, ?_⟩
  · simp only [hcalls]
    unfold pullCount at hq0 ⊢
    simp only [List.countP_append, hq0]
    simp
  · simp only [hcalls, createdIds, List.filterMap_append, q1]
    simp
  · simp only [hcalls, attachIds, List.filterMap_append, q2]
    simp
  · simp only [hcalls, startIds, List.filterMap_append, q3]
    simp
  · simp only [hcalls, stopIds, List.filterMap_append, q4]
    simp
  · intro cnt hcnt
    simp only [Option.some.injEq] at hcnt
    rw [← hcnt]
    rfl

/-- C7 on the scripted engine on which every call succeeds, for the image of
the spec's scenario: the engine answers the create with `c1` and the attach
with connection 1, and `Deploy` makes the five calls in order and returns the
handle of `c1`. -/
theorem Deploy_success_trace_witness :
    Script.allOk.client.ContainerCreate
        { Image := "example/echo:latest", Tty := false, AttachStdin := true,
          AttachStdout := true, AttachStderr := true, StdinOnce := false, OpenStdin := true,
          Cmd := ["--atp"], Env := ["PYTHON_UNBUFFERED=1"], rest := [] }
        none none none "" 0 = (CreateResponse.ok "c1", 0) ∧
      Script.allOk.client.ContainerAttach "c1" attachOptions 0 = (Except.ok ⟨1, 1⟩, 0) ∧
      (connector.Deploy Script.allOk.client (plainConfig ImagePullPolicy.Always) noJSON
        "example/echo:latest" (World.init 0)).world.calls =
        [Call.ImagePull "example/echo:latest" none, Call.PullRead none,
         Call.ContainerCreate
           { Image := "example/echo:latest", Tty := false, AttachStdin := true,
             AttachStdout := true, AttachStderr := true, StdinOnce := false, OpenStdin := true,
             Cmd := ["--atp"], Env := ["PYTHON_UNBUFFERED=1"], rest := [] }
           none none none "" (CreateResponse.ok "c1"),
         Call.ContainerAttach "c1" attachOptions none,
         Call.ContainerStart "c1" none] ∧
      stopIds (connector.Deploy Script.allOk.client (plainConfig ImagePullPolicy.Always) noJSON
        "example/echo:latest" (World.init 0)).world.calls = [] ∧
      (connector.Deploy Script.allOk.client (plainConfig ImagePullPolicy.Always) noJSON
        "example/echo:latest" (World.init 0)).err = none ∧
      (connector.Deploy Script.allOk.client (plainConfig ImagePullPolicy.Always) noJSON
        "example/echo:latest" (World.init 0)).handle = some ⟨"c1", some ⟨1, 1⟩, ⟨some 1⟩⟩ :=
  have h := Deploy_success_trace Script.allOk.client (plainConfig ImagePullPolicy.Always) noJSON
    "example/echo:latest" 0 ⟨[[97, 10, 98], [99, 10]], none⟩ "c1" ⟨1, 1⟩ 0 0 0 0
    _ rfl _ rfl rfl rfl rfl rfl rfl rfl _ rfl
  ⟨rfl, rfl, h.2.1, h.2.2.2.2.2.2.2.1, h.2.2.2.2.2.2.2.2.1, h.2.2.2.2.2.2.2.2.2.1⟩

/-- C8: for every engine, handle and world, `Close` makes exactly one stop
request, for the handle's id, as its last call: alone when no transport is
attached, after `Close` and `CloseWrite` of the transport when one is. The
engine is left in the state its `ContainerStop` returns. `Close` returns an
error exactly when the engine's `ContainerStop`, asked in the state the
transport calls leave, answers an error that is not "not found", and the error
is then that answer wrapped with the id; what `CloseWrite` answers plays no
part. Hence a second `Close` on the same handle returns no error whenever the
engine answers its stop request with success or with "not found". -/
theorem Close_stops_once (cli : Client σ) (c : connectorContainer) (w : World σ V) :
    (c.hijackedResponse = none →
        (c.Close cli w).2.calls =
          w.calls ++ [Call.ContainerStop c.id (cli.ContainerStop c.id w.engine).1]) ∧
      (∀ h, c.hijackedResponse = some h →
        (c.Close cli w).2.calls =
          w.calls ++ [Call.HijackedClose h,
            Call.HijackedCloseWrite h (cli.HijackedCloseWrite h (cli.HijackedClose h w.engine)).1,
            Call.ContainerStop c.id
              (cli.ContainerStop c.id
                (cli.HijackedCloseWrite h (cli.HijackedClose h w.engine)).2).1]) ∧
      stopIds (c.Close cli w).2.calls = stopIds w.calls ++ [c.id] ∧
      (c.Close cli w).2.engine = (cli.ContainerStop c.id (c.stopState cli w.engine)).2 ∧
      ((c.Close cli w).1 ≠ none ↔
        ∃ e, (cli.ContainerStop c.id (c.stopState cli w.engine)).1 = some e ∧
          e.notFound = false) ∧
      (∀ e, (cli.ContainerStop c.id (c.stopState cli w.engine)).1 = some e →
        e.notFound = false →
        (c.Close cli w).1 =
          some (GoError.errorf "failed to stop container %s (%w)" c.id (GoError.engine e))) ∧
      (((cli.ContainerStop c.id (c.stopState cli
            (cli.ContainerStop c.id (c.stopState cli w.engine)).2)).1 = none ∨
          ∃ e, (cli.ContainerStop c.id (c.stopState cli
            (cli.ContainerStop c.id (c.stopState cli w.engine)).2)).1 = some e ∧
            e.notFound = true) →
        (c.Close cli (c.Close cli w).2).1 = none) := by
  have main : ∀ w0 : World σ V,
      (c.Close cli w0).2.engine = (cli.ContainerStop c.id (c.stopState cli w0.engine)).2 ∧
      (c.Close cli w0).1 =
        (match (cli.ContainerStop c.id (c.stopState cli w0.engine)).1 with
          | some e =>
            if e.notFound then none
            else some (GoError.errorf "failed to stop container %s (%w)" c.id (GoError.engine e))
          | none => none) := by
    intro w0
    cases hh : c.hijackedResponse with
    | none =>
      simp only [connectorContainer.Close, connectorContainer.stopState, World.record, hh]
      cases hs : (cli.ContainerStop c.id w0.engine).1 with
      | none => simp
      | some e => cases hn : e.notFound <;> simp [hn]
    | some h =>
      simp only [connectorContainer.Close, connectorContainer.stopState, World.record, hh]
      cases hs : (cli.ContainerStop c.id
          (cli.HijackedCloseWrite h (cli.HijackedClose h w0.engine)).2).1 with
      | none => simp
      | some e => cases hn : e.notFound <;> simp [hn]
  have hcalls1 : c.hijackedResponse = none →
      (c.Close cli w).2.calls =
        w.calls ++ [Call.ContainerStop c.id (cli.ContainerStop c.id w.engine).1] := by
    intro hh
    simp only [connectorContainer.Close, World.record, hh]
    cases hs : (cli.ContainerStop c.id w.engine).1 with
    | none => simp
    | some e => cases hn : e.notFound <;> simp [hn]
  have hcalls2 : ∀ h, c.hijackedResponse = some h →
      (c.Close cli w).2.calls =
        w.calls ++ [Call.HijackedClose h,
          Call.HijackedCloseWrite h (cli.HijackedCloseWrite h (cli.HijackedClose h w.engine)).1,
          Call.ContainerStop c.id
            (cli.ContainerStop c.id
              (cli.HijackedCloseWrite h (cli.HijackedClose h w.engine)).2).1] := by
    intro h hh
    simp only [connectorContainer.Close, World.record, hh]
    cases hs : (cli.ContainerStop c.id
        (cli.HijackedCloseWrite h (cli.HijackedClose h w.engine)).2).1 with
    | none => simp
    | some e => cases hn : e.notFound <;> simp [hn]
  refine ⟨hcalls1, hcalls2, ?_, (main w).1, ?_, ?_, ?_⟩
  · cases hh : c.hijackedResponse with
    | none =>
      rw [hcalls1 hh]
      simp [stopIds, List.filterMap_append]
    | some h =>
      rw [hcalls2 h hh]
      simp [stopIds, List.filterMap_append]
  · rw [(main w).2]
    cases (cli.ContainerStop c.id (c.stopState cli w.engine)).1 with
    | none => simp
    | some e => cases hn : e.notFound <;> simp [hn]
  · intro e he hn
    rw [(main w).2, he]
    simp [hn]
  · intro hans
    rw [(main (c.Close cli w).2).2, (main w).1]
    rcases hans with h0 | ⟨e, h0, hn⟩
    · rw [h0]
    · rw [h0]
      simp [hn]

/-- C8 on the scripted engine, which answers the first stop with the error
`stop failed` and the second with "not found": the first `Close` of an attached
handle returns the wrapped stop error, the second returns no error. -/
theorem Close_stops_once_witness :
    (Script.attachFails.client.ContainerStop "c1"
        ((⟨"c1", some ⟨1, 1⟩, ⟨some 1⟩⟩ : connectorContainer).stopState
          Script.attachFails.client 0)).1 = some ⟨"stop failed", false⟩ ∧
      ((⟨"c1", some ⟨1, 1⟩, ⟨some 1⟩⟩ : connectorContainer).Close Script.attachFails.client
        (World.init 0 : World Nat String)).1 =
        some (GoError.errorf "failed to stop container %s (%w)" "c1"
          (GoError.engine ⟨"stop failed", false⟩)) ∧
      ((⟨"c1", some ⟨1, 1⟩, ⟨some 1⟩⟩ : connectorContainer).Close Script.attachFails.client
        (((⟨"c1", some ⟨1, 1⟩, ⟨some 1⟩⟩ : connectorContainer).Close Script.attachFails.client
          (World.init 0 : World Nat String)).2)).1 = none :=
  have h := Close_stops_once Script.attachFails.client ⟨"c1", some ⟨1, 1⟩, ⟨some 1⟩⟩
    (World.init 0 : World Nat String)
  ⟨rfl, h.2.2.2.2.2.1 ⟨"stop failed", false⟩ rfl rfl,
    h.2.2.2.2.2.2 (Or.inr ⟨⟨"No such container", true⟩, rfl, rfl⟩)⟩

/-- C9, evaluated on a connector whose `ContainerConfig` is set with
`Env = ["A=1"]`: after one `createContainer` the connector's configuration has
changed (its `Env` has grown by the unbuffered-output variable, its `Image`
and `Cmd` are overwritten), and the second of two deployments submits the
variable twice. -/
theorem createContainer_changes_config :
    (connector.createContainer Script.allOk.client envConfig "example/echo:latest"
        (World.init 0 : World Nat String)).2.1 ≠ envConfig ∧
      (connector.createContainer Script.allOk.client envConfig "example/echo:latest"
        (World.init 0 : World Nat String)).2.1.Deployment.ContainerConfig =
        some { ContainerConfig.zero with
          Image := "example/echo:latest", AttachStdin := true, AttachStdout := true,
          AttachStderr := true, OpenStdin := true, Cmd := ["--atp"],
          Env := ["A=1", "PYTHON_UNBUFFERED=1"] } ∧
      submittedEnvs (connector.Deploy Script.allOk.client
        (connector.Deploy Script.allOk.client envConfig noJSON "example/echo:latest"
          (World.init 0)).config noJSON "example/echo:latest"
        (connector.Deploy Script.allOk.client envConfig noJSON "example/echo:latest"
          (World.init 0)).world).world.calls =
        [["A=1", "PYTHON_UNBUFFERED=1"], ["A=1", "PYTHON_UNBUFFERED=1", "PYTHON_UNBUFFERED=1"]] := by
  refine ⟨by decide, by decide, by decide⟩

end DeployClaims

end Docker
